import Mathlib

/-!
# FaceFrame python backend — shallow embedding

This file embeds the FaceFrame python backend (`src/python-backend/`:
`database.py`, `scanner.py`, `clusterer.py`, `main.py`) as executable Lean
definitions and proves properties of them.

Modelling conventions:
* sqlite tables become Lean lists of rows; row order models rowid order
  (insertion order).  `INSERT OR REPLACE` removes the row with the same
  primary key and appends the fresh row, matching sqlite's delete+insert
  semantics for `REPLACE`.
* `AUTOINCREMENT` ids are threaded explicitly (`nextPersonId`, `nextFaceId`),
  starting at 1 as sqlite does.
* Embeddings are stored as raw data that may or may not parse
  (`RawEmb.valid v` / `RawEmb.invalid`), abstracting `json.loads` over the
  stored string/bytes; vector components are `ℚ` (exact arithmetic in place
  of float32).
* Modification times are `Nat` (only compared for equality by the code).
* Each `Database` method that opens a connection, runs statements and
  commits once becomes one pure function `Database → ... → Database`; the
  single commit makes the whole method atomic, which the embedding reflects
  by exposing no intermediate state.
-/

namespace FaceFrame

/-- Embedding vectors, exact-rational stand-in for the float32 vectors. -/
abbrev Vec := List ℚ

/-- A stored face embedding: either data that `json.loads` decodes to a
numeric vector, or data whose parse raises (malformed JSON, wrong type). -/
inductive RawEmb where
  | valid (v : Vec)
  | invalid
deriving DecidableEq

/-- The `try: ... json.loads ... except: continue` parse in
`Clusterer.run_clustering`: `some` on success, `none` when it raises. -/
def parseEmb : RawEmb → Option Vec
  | .valid v => some v
  | .invalid => none

/-- A row of the `files` table (`scanned_at` is never read; elided). -/
structure FileRow where
  path : String
  hash : String
  mtime : Nat
deriving DecidableEq

/-- A row of the `persons` table (`created_at` is never read; elided). -/
structure PersonRow where
  id : Nat
  name : Option String
  thumbnailPath : Option String
deriving DecidableEq

/-- A row of the `faces` table. -/
structure FaceRow where
  id : Nat
  filePath : String
  embedding : RawEmb
  bbox : String
  thumbnailPath : Option String
  personId : Option Nat
deriving DecidableEq

/-- One detection handed to `Database.add_faces`
(`{'embedding': ..., 'bbox': ..., 'thumbnail': ...}`). -/
structure FaceDet where
  embedding : RawEmb
  bbox : String
  thumbnail : Option String
deriving DecidableEq

/-- The sqlite store of `database.py` (tables `files`, `persons`, `faces`). -/
structure Database where
  files : List FileRow
  persons : List PersonRow
  faces : List FaceRow
  nextPersonId : Nat
  nextFaceId : Nat
deriving DecidableEq

/-- A freshly created store: `_init_db` creates empty tables; sqlite
autoincrement ids start at 1. -/
def freshDatabase : Database := ⟨[], [], [], 1, 1⟩

/-- `Database.file_exists`: `SELECT modified_time FROM files WHERE path = ?`,
then `row and row[0] == modified_time` (`path` is the primary key, so at
most one row matches). -/
def Database.file_exists (db : Database) (path : String) (mtime : Nat) : Bool :=
  match db.files.find? (fun r => r.path == path) with
  | some r => r.mtime == mtime
  | none => false

/-- `Database.add_file`: `INSERT OR REPLACE INTO files ...`. -/
def Database.add_file (db : Database) (path : String) (hashVal : String) (mtime : Nat) :
    Database :=
  { db with files := db.files.filter (fun r => !(r.path == path)) ++ [⟨path, hashVal, mtime⟩] }

/-- `Database.add_faces`: one `INSERT INTO faces ...` per detection, with
`person_id` left NULL, all committed together. -/
def Database.add_faces (db : Database) (filePath : String) (dets : List FaceDet) : Database :=
  dets.foldl
    (fun d det =>
      { d with
        faces := d.faces ++ [⟨d.nextFaceId, filePath, det.embedding, det.bbox, det.thumbnail, none⟩],
        nextFaceId := d.nextFaceId + 1 })
    db

/-- `Database.get_unclustered_faces`:
`SELECT id, embedding FROM faces WHERE person_id IS NULL` in rowid order. -/
def Database.get_unclustered_faces (db : Database) : List (Nat × RawEmb) :=
  (db.faces.filter (fun f => f.personId == none)).map (fun f => (f.id, f.embedding))

/-- `Database.get_unclustered_faces_info`:
`SELECT id, file_path, bbox, thumbnail_path FROM faces WHERE person_id IS NULL`. -/
def Database.get_unclustered_faces_info (db : Database) :
    List (Nat × String × String × Option String) :=
  (db.faces.filter (fun f => f.personId == none)).map
    (fun f => (f.id, f.filePath, f.bbox, f.thumbnailPath))

/-- `Database.create_person`: `INSERT INTO persons (name, created_at) ...`,
returning `lastrowid`. -/
def Database.create_person (db : Database) (name : Option String) : Nat × Database :=
  (db.nextPersonId,
    { db with
      persons := db.persons ++ [⟨db.nextPersonId, name, none⟩],
      nextPersonId := db.nextPersonId + 1 })

/-- `Database.update_face_person`:
`UPDATE faces SET person_id = ? WHERE id = ?`. -/
def Database.update_face_person (db : Database) (faceId personId : Nat) : Database :=
  { db with
    faces := db.faces.map (fun f => if f.id == faceId then { f with personId := some personId } else f) }

/-- `Database.get_persons`: `SELECT * FROM persons`. -/
def Database.get_persons (db : Database) : List PersonRow := db.persons

/-- First-occurrence deduplication, used for `SELECT DISTINCT` and for
python's `set(labels)` (whose iteration order is implementation defined;
every theorem below is insensitive to the order chosen here). -/
def dedupFirst {α : Type} [BEq α] (l : List α) : List α :=
  l.foldl (fun acc x => if acc.contains x then acc else acc ++ [x]) []

/-- `Database.get_photos_by_person`:
`SELECT DISTINCT file_path FROM faces WHERE person_id = ?`. -/
def Database.get_photos_by_person (db : Database) (personId : Nat) : List String :=
  dedupFirst ((db.faces.filter (fun f => f.personId == some personId)).map (fun f => f.filePath))

/-- `Database.get_person_face_count`:
`SELECT COUNT(*) FROM faces WHERE person_id = ?`. -/
def Database.get_person_face_count (db : Database) (personId : Nat) : Nat :=
  db.faces.countP (fun f => f.personId == some personId)

/-- `Database.rename_person`: `UPDATE persons SET name = ? WHERE id = ?`. -/
def Database.rename_person (db : Database) (personId : Nat) (newName : String) : Database :=
  { db with
    persons := db.persons.map (fun p => if p.id == personId then { p with name := some newName } else p) }

/-- `Database.merge_persons`: `UPDATE faces SET person_id = keep WHERE
person_id = merge`, then `DELETE FROM persons WHERE id = merge`; one commit,
so the embedding is a single atomic state change. -/
def Database.merge_persons (db : Database) (keepId mergeId : Nat) : Database :=
  { db with
    faces := db.faces.map
      (fun f => if f.personId == some mergeId then { f with personId := some keepId } else f),
    persons := db.persons.filter (fun p => !(p.id == mergeId)) }

/-- `Database.update_person_thumbnail`:
`UPDATE persons SET thumbnail_path = ? WHERE id = ?`. -/
def Database.update_person_thumbnail (db : Database) (personId : Nat) (thumb : String) : Database :=
  { db with
    persons := db.persons.map
      (fun p => if p.id == personId then { p with thumbnailPath := some thumb } else p) }

/-- `Database.get_first_face_thumbnail`: `SELECT thumbnail_path FROM faces
WHERE person_id = ? AND thumbnail_path IS NOT NULL LIMIT 1`. -/
def Database.get_first_face_thumbnail (db : Database) (personId : Nat) : Option String :=
  match db.faces.find? (fun f => f.personId == some personId && !(f.thumbnailPath == none)) with
  | some f => f.thumbnailPath
  | none => none

/-! ## Clusterer (`clusterer.py`)

The embedding-space geometry of `run_clustering` is: L2-normalize every
parsed vector (a zero vector is left as the zero vector — the code replaces
a zero norm by 1 before dividing), then run
`DBSCAN(eps=0.5, min_samples=2, metric="euclidean")`.

We express the geometric test "normalized `x` and normalized `y` lie within
Euclidean distance 1/2" exactly over `ℚ`: for nonzero `x`, `y` it is
equivalent to `⟨x,y⟩ ≥ (7/8)·‖x‖·‖y‖`, i.e. `0 ≤ ⟨x,y⟩` and
`49·‖x‖²·‖y‖² ≤ 64·⟨x,y⟩²` (derivation: `‖u-v‖² = 2 - 2⟨u,v⟩ ≤ 1/4` for
unit `u`, `v`); a zero vector is within 1/2 of exactly the other zero
vectors (its distance to any unit vector is 1). -/

/-- Dot product of two rational vectors (equal length per the spec's fixed
dimensionality; `zip` truncates otherwise). -/
def dot (x y : Vec) : ℚ := ((x.zip y).map (fun p => p.1 * p.2)).sum

/-- Squared L2 norm. -/
def sqnorm (x : Vec) : ℚ := dot x x

/-- `‖normalize x - normalize y‖ ≤ 1/2`, with the code's zero-vector
convention, written rationally (see the section comment). -/
def close (x y : Vec) : Bool :=
  if sqnorm x == 0 && sqnorm y == 0 then true
  else if sqnorm x == 0 || sqnorm y == 0 then false
  else decide (0 ≤ dot x y ∧ 49 * (sqnorm x * sqnorm y) ≤ 64 * (dot x y * dot x y))

/-- Point `i` of the list, out-of-range reads give the empty vector (never
reached by the functions below). -/
def ptsGet (pts : List Vec) (i : Nat) : Vec := pts.getD i []

/-- The eps-neighborhood graph on indices: distinct points within eps. -/
def neighborB (pts : List Vec) (i j : Nat) : Bool :=
  !(i == j) && close (ptsGet pts i) (ptsGet pts j)

/-- DBSCAN core point for `min_samples=2`: sklearn counts the point itself,
so core means "has at least one other point within eps". -/
def isCore (pts : List Vec) (i : Nat) : Bool :=
  (List.range pts.length).any (fun j => neighborB pts i j)

/-- One step of closure of an index set under the neighborhood graph. -/
def stepSet (pts : List Vec) (s : List Nat) : List Nat :=
  (List.range pts.length).filter (fun j => s.contains j || s.any (fun i => neighborB pts i j))

/-- Iterated closure (fuel-bounded; `pts.length` steps reach the fixpoint). -/
def iterStep (pts : List Vec) : Nat → List Nat → List Nat
  | 0, s => s
  | f + 1, s => iterStep pts f (stepSet pts s)

/-- Connected component of index `i` in the eps-neighborhood graph. -/
def compOf (pts : List Vec) (i : Nat) : List Nat :=
  iterStep pts pts.length ((List.range pts.length).filter (fun j => j == i))

/-- Least index in the component of `i`. -/
def minComp (pts : List Vec) (i : Nat) : Nat :=
  (compOf pts i).foldr Nat.min i

/-- Modelled from sklearn `DBSCAN(eps=0.5, min_samples=2).fit(X).labels_`
specialized to `min_samples=2`: every point with a neighbor within eps is a
core point, clusters are the connected components of the eps-neighborhood
graph that have at least two members, cluster numbers are assigned in scan
order (components ordered by least member index), isolated points get the
noise label `-1`. -/
def dbLabel (pts : List Vec) (i : Nat) : Int :=
  if isCore pts i then
    ((List.range (minComp pts i)).countP (fun k => isCore pts k && (minComp pts k == k)) : Int)
  else -1

/-- The `labels_` array for the point list. -/
def dbscan_labels (pts : List Vec) : List Int :=
  (List.range pts.length).map (dbLabel pts)

/-- The body of the person-creation loop of `run_clustering` (step 3 of
`clusterer.py`): skip the noise label, otherwise `create_person` named
`"Person {label + 1}"` and record `cluster_map[label] = person_id`.
(The loop also computes `first_face_idx`, which is dead code.) -/
def createPersonForLabel (acc : Database × List (Int × Nat)) (label : Int) :
    Database × List (Int × Nat) :=
  if label == -1 then acc
  else
    let r := acc.1.create_person (some ("Person " ++ toString (label + 1)))
    (r.2, acc.2 ++ [(label, r.1)])

/-- The body of the face-update loop of `run_clustering` (step 4): for
`idx, label in enumerate(labels)`, when the label is not noise, assign
`face_ids[idx]` to `cluster_map[label]`.  The `none` fallback of the lookup
is unreachable (every non-noise label occurs in the deduplicated label
list); python would raise `KeyError` there. -/
def assignFaceForLabel (face_ids : List Nat) (cluster_map : List (Int × Nat))
    (d : Database) (il : Nat × Int) : Database :=
  if il.2 == -1 then d
  else
    match cluster_map.lookup il.2 with
    | some pid => d.update_face_person (face_ids.getD il.1 0) pid
    | none => d

/-- The body of the thumbnail loop of `run_clustering` (step 5): set each
new person's thumbnail to its first face's non-null thumbnail, if any. -/
def setThumbnailForPerson (d : Database) (lp : Int × Nat) : Database :=
  match d.get_first_face_thumbnail lp.2 with
  | some t => d.update_person_thumbnail lp.2 t
  | none => d

/-- `Clusterer.run_clustering`, returning `(new_people_count, db)`.

Faithful points worth noting against `clusterer.py`:
* `face_ids.append(r[0])` happens before the embedding parse `try:` block,
  while `embeddings.append(emb)` happens inside it, so a parse failure
  (`continue`) leaves the id in `face_ids` but drops the vector — the two
  lists go out of step, exactly as in the source.
* `unique_labels = set(labels)`: python set iteration order is
  implementation defined; we use first-occurrence order (`dedupFirst`), and
  no theorem below depends on that order. -/
def run_clustering (db : Database) : Nat × Database :=
  let rows := db.get_unclustered_faces
  if rows.isEmpty then (0, db)
  else
    let face_ids := rows.map (fun r => r.1)
    let embeddings := rows.filterMap (fun r => parseEmb r.2)
    if embeddings.length < 2 then (0, db)
    else
      let labels := dbscan_labels embeddings
      let pc := (dedupFirst labels).foldl createPersonForLabel (db, [])
      let db1 := pc.1
      let cluster_map := pc.2
      let db2 := labels.enum.foldl (assignFaceForLabel face_ids cluster_map) db1
      let db3 := cluster_map.foldl setThumbnailForPerson db2
      (cluster_map.length, db3)

/-! ## Scanner (`scanner.py`) and session layer (`main.py`)

The filesystem is abstracted as the data the scan reads from it: for each
file its path, basename, suffix, modification time, whether reading its
bytes succeeds (for hashing), its digest when readable, and the outcome of
`FaceProcessor.process_image` on it (`none` models the provider raising;
the provider is an external collaborator, so its outcome is input data).
`abort : Nat → Bool` gives the value of the shared `abort_scan_flag` global
at its k-th read; each read of the flag consumes one index. -/

/-- One line printed to stdout by the backend (`print(json.dumps(...))`). -/
inductive Out where
  | started (path : String)
  | progress (current total : Nat) (file : String)
  | complete (path : String)
  | cancelled
  | error (msg : String)
  | clustered (count : Nat)
  | unclustered (data : List (Nat × String × String × Option String))
  | persons (data : List (Nat × String × Option String))
  | photosByPerson (personId : Nat) (photos : List String)
  | personRenamed (personId : Nat) (name : String)
  | personsMerged (keepId mergeId : Nat)
  | indexCleared
  | pong
deriving DecidableEq

/-- One file as the scan sees it (see the section comment). -/
structure Img where
  path : String
  base : String
  suffix : String
  mtime : Nat
  readOk : Bool
  digest : String
  detect : Option (List FaceDet)
deriving DecidableEq

instance : Inhabited Img := ⟨⟨"", "", "", 0, true, "", none⟩⟩

/-- The directory tree under the scan root. -/
structure FS where
  rootExists : Bool
  entries : List Img
deriving DecidableEq

/-- `VALID_EXTENSIONS` of `scanner.py`. -/
def VALID_EXTENSIONS : List String := [".jpg", ".jpeg", ".png", ".bmp", ".webp", ".tiff"]

/-- Phase 1 of `Scanner.scan_directory`: `os.walk` plus
`Path(f).suffix.lower() in VALID_EXTENSIONS`, fully before processing. -/
def enumerateImages (fs : FS) : List Img :=
  fs.entries.filter (fun e => VALID_EXTENSIONS.contains e.suffix.toLower)

/-- `Scanner.calculate_hash`: the MD5 hex digest of the file's bytes, or
`""` when reading raises (logged and swallowed). -/
def calculate_hash (img : Img) : String :=
  if img.readOk then img.digest else ""

/-- Accumulated state of the per-file loop of `Scanner.scan_directory`:
the store, `processed_files`, how many times the abort flag was read, how
many times `processor.process_image` was invoked, the emitted progress
events, and whether the loop was left by the abort `break`. -/
structure LoopState where
  db : Database
  processed : Nat
  polls : Nat
  calls : Nat
  events : List Out
  aborted : Bool
deriving DecidableEq

/-- The `for idx, full_path in enumerate(image_files):` loop of
`Scanner.scan_directory`, one iteration per remaining file: emit the
progress event, poll the abort flag (breaking if set), skip the file when
`file_exists(path, mtime)`, otherwise hash it, `add_file`, invoke the
provider (an exception is logged and treated as no faces; non-empty
detections are stored via `add_faces`), and count the file as processed. -/
def scanLoop (hasProc : Bool) (abort : Nat → Bool) (total : Nat) :
    List Img → LoopState → LoopState
  | [], st => st
  | img :: rest, st =>
    let st1 : LoopState := { st with events := st.events ++ [Out.progress st.processed total img.base] }
    if abort st1.polls then
      { st1 with polls := st1.polls + 1, aborted := true }
    else
      let st2 : LoopState := { st1 with polls := st1.polls + 1 }
      if st2.db.file_exists img.path img.mtime then
        scanLoop hasProc abort total rest { st2 with processed := st2.processed + 1 }
      else
        let db1 := st2.db.add_file img.path (calculate_hash img) img.mtime
        let dc : Database × Nat :=
          if hasProc then
            match img.detect with
            | none => (db1, 1)
            | some faces => (if faces.isEmpty then db1 else db1.add_faces img.path faces, 1)
          else (db1, 0)
        scanLoop hasProc abort total rest
          { st2 with db := dc.1, calls := st2.calls + dc.2, processed := st2.processed + 1 }

/-- The loop state `Scanner.scan_directory` starts from. -/
def initLoopState (db : Database) : LoopState := ⟨db, 0, 0, 0, [], false⟩

/-- `Scanner.scan_directory`.  When the root is missing it logs and returns
before emitting anything (the returned `Bool` is `true` iff the per-file
loop ran); otherwise it enumerates, runs the loop, and emits the final
`progress(processed_files, total_files, "Complete")` event. -/
def scan_directory (fs : FS) (hasProc : Bool) (abort : Nat → Bool) (db : Database) :
    LoopState × Bool :=
  if fs.rootExists then
    let imgs := enumerateImages fs
    let st := scanLoop hasProc abort imgs.length imgs (initLoopState db)
    ({ st with events := st.events ++ [Out.progress st.processed imgs.length "Complete"] }, true)
  else
    (initLoopState db, false)

/-- `run_scan` of `main.py`.  `setupOk` models the `try:` prologue — the
`mkdir(parents=True, exist_ok=True)` calls and the `FaceProcessor`
construction; when any of them raises, the handler prints an `error`
status.  When setup succeeds, the `.faceframe` directory creation has
ensured the root path exists (`parents=True` creates a missing root), so
the scan runs with an existing root; `started` is printed first, and after
the scan the handler prints `cancelled` or `complete` according to one more
read of the abort flag.  Returns (store, printed lines, provider calls). -/
def run_scan (path : String) (setupOk : Bool) (fs : FS) (abort : Nat → Bool) (db : Database) :
    Database × List Out × Nat :=
  if setupOk then
    let st := (scan_directory { fs with rootExists := true } true abort db).1
    (st.db,
      Out.started path :: st.events ++ [if abort st.polls then Out.cancelled else Out.complete path],
      st.calls)
  else
    (db, [Out.error "scan setup failed"], 0)

/-- python truthiness of an optional string field (`cmd.get(...)`):
absent and `""` are falsy. -/
def truthyS : Option String → Bool
  | none => false
  | some s => !(s == "")

/-- python truthiness of an optional numeric id field: absent and `0` are
falsy. -/
def truthyN : Option Nat → Bool
  | none => false
  | some n => !(n == 0)

/-- A parsed command line of the session protocol (`main.py` dispatch).
Field values are as `cmd.get` returns them (`none` = absent).  A SCAN
carries the data of the scan it would launch; its thread is modelled as
running to completion at dispatch time (its effect on this root's store and
output stream), and CANCEL_SCAN's flag write is modelled by the abort
schedule the scan reads. -/
inductive Cmd where
  | scan (path : Option String) (setupOk : Bool) (fs : FS) (abort : Nat → Bool)
  | cancelScan
  | cluster (path : Option String)
  | getUnclustered (path : Option String)
  | getPersons (path : Option String)
  | getPhotosByPerson (path : Option String) (person_id : Option Nat)
  | renamePerson (path : Option String) (person_id : Option Nat) (new_name : Option String)
  | mergePersons (path : Option String) (keep_id merge_id : Option Nat)
  | clearIndex (path : Option String)
  | ping

/-- `p[1] or f"Person {p[0]}"` in the GET_PERSONS handler. -/
def displayName (pr : PersonRow) : String :=
  match pr.name with
  | some n => if n == "" then "Person " ++ toString pr.id else n
  | none => "Person " ++ toString pr.id

/-- The command dispatch of `main.main()`, for the store of one root path
(each distinct path has its own independent `.faceframe/index.db`; `path`
truthiness gates every handler exactly as `if path:` does).  Returns the
store after the command and the lines it prints.  CLEAR_INDEX deletes the
index directory, so the next open recreates an empty schema.  GET_PROVIDERS
touches no store and is elided. -/
def dispatch (db : Database) : Cmd → Database × List Out
  | .scan p ok fs ab =>
    if truthyS p then
      let r := run_scan (p.getD "") ok fs ab db
      (r.1, r.2.1)
    else (db, [])
  | .cancelScan => (db, [])
  | .cluster p =>
    if truthyS p then
      let r := run_clustering db
      (r.2, [Out.clustered r.1])
    else (db, [])
  | .getUnclustered p =>
    if truthyS p then (db, [Out.unclustered db.get_unclustered_faces_info]) else (db, [])
  | .getPersons p =>
    if truthyS p then
      (db, [Out.persons (db.get_persons.map (fun pr => (pr.id, displayName pr, pr.thumbnailPath)))])
    else (db, [])
  | .getPhotosByPerson p pid =>
    if truthyS p && truthyN pid then
      (db, [Out.photosByPerson (pid.getD 0) (db.get_photos_by_person (pid.getD 0))])
    else (db, [])
  | .renamePerson p pid nn =>
    if truthyS p && truthyN pid && truthyS nn then
      (db.rename_person (pid.getD 0) (nn.getD ""), [Out.personRenamed (pid.getD 0) (nn.getD "")])
    else (db, [])
  | .mergePersons p k m =>
    if truthyS p && truthyN k && truthyN m then
      (db.merge_persons (k.getD 0) (m.getD 0), [Out.personsMerged (k.getD 0) (m.getD 0)])
    else (db, [])
  | .clearIndex p =>
    if truthyS p then (freshDatabase, [Out.indexCleared]) else (db, [])
  | .ping => (db, [Out.pong])

/-- Run a sequence of session commands against one root's store. -/
def exec (db : Database) : List Cmd → Database
  | [] => db
  | c :: cs => exec (dispatch db c).1 cs

/-- Whether some Person row has this id. -/
def personExists (ps : List PersonRow) (personId : Nat) : Bool :=
  ps.any (fun p => p.id == personId)

/-- The referential invariant of the data model: every Face whose
`personId` is non-null references an existing Person row. -/
def invariantB (db : Database) : Bool :=
  db.faces.all (fun f =>
    match f.personId with
    | none => true
    | some personId => personExists db.persons personId)

/-- Guard under which a command provably preserves `invariantB`: a
MERGE_PERSONS that fires must have distinct ids and an existing keep
person; every other command is unrestricted. -/
def okMergeB (db : Database) : Cmd → Bool
  | .mergePersons p k m =>
    !(truthyS p && truthyN k && truthyN m) ||
      (!(k.getD 0 == m.getD 0) && personExists db.persons (k.getD 0))
  | _ => true

/-- `okMergeB` holding at every intermediate state of a command sequence. -/
def execOkB (db : Database) : List Cmd → Bool
  | [] => true
  | c :: cs => okMergeB db c && execOkB (dispatch db c).1 cs

/-- Whether a printed line is an `error` status. -/
def isErrorOut : Out → Bool
  | .error _ => true
  | _ => false

/-- The per-file loop run over only the first `k` enumerated files — the
state a cancelled scan is compared against. -/
def scanTrunc (fs : FS) (ab : Nat → Bool) (db : Database) (k : Nat) : LoopState :=
  scanLoop true ab (enumerateImages fs).length ((enumerateImages fs).take k) (initLoopState db)

/-! ## Concrete states used to instantiate the theorems -/

/-- A store holding three unclustered faces: face 1 with an unparsable
stored embedding, faces 2 and 3 with identical valid embeddings. -/
def dbC1 : Database :=
  ⟨[], [],
   [⟨1, "a.jpg", RawEmb.invalid, "[]", none, none⟩,
    ⟨2, "b.jpg", RawEmb.valid [1, 0], "[]", none, none⟩,
    ⟨3, "c.jpg", RawEmb.valid [1, 0], "[]", none, none⟩], 1, 4⟩

/-- A store holding four unclustered faces: face 1 unparsable, face 2 with
an embedding far from all others (a noise point), faces 3 and 4 with
identical embeddings (a cluster). -/
def dbC6 : Database :=
  ⟨[], [],
   [⟨1, "a.jpg", RawEmb.invalid, "[]", none, none⟩,
    ⟨2, "b.jpg", RawEmb.valid [0, 1], "[]", none, none⟩,
    ⟨3, "c.jpg", RawEmb.valid [1, 0], "[]", none, none⟩,
    ⟨4, "d.jpg", RawEmb.valid [1, 0], "[]", none, none⟩], 1, 5⟩

/-- An image file whose provider call finds one face. -/
def imgA : Img :=
  ⟨"/r/a.jpg", "a.jpg", ".jpg", 5, true, "ha",
   some [⟨RawEmb.valid [1, 0], "[0,0,8,8]", some "ta.jpg"⟩]⟩

/-- An image file whose provider call finds no faces. -/
def imgB : Img := ⟨"/r/b.jpg", "b.jpg", ".jpg", 6, true, "hb", some []⟩

/-- An image file whose bytes cannot be read while hashing. -/
def imgBad : Img := ⟨"/r/bad.jpg", "bad.jpg", ".jpg", 7, false, "unused", some []⟩

/-- A two-image directory. -/
def fsAB : FS := ⟨true, [imgA, imgB]⟩

/-- A directory holding one unreadable image. -/
def fsBad : FS := ⟨true, [imgBad]⟩

/-- A store with two persons, one face on person 1, two faces on person 2
and one unassigned face. -/
def dbMergeW : Database :=
  ⟨[], [⟨1, some "A", none⟩, ⟨2, some "B", none⟩],
   [⟨1, "x.jpg", RawEmb.invalid, "[]", none, some 1⟩,
    ⟨2, "y.jpg", RawEmb.invalid, "[]", none, some 2⟩,
    ⟨3, "z.jpg", RawEmb.invalid, "[]", none, some 2⟩,
    ⟨4, "w.jpg", RawEmb.invalid, "[]", none, none⟩], 3, 5⟩

/-- A store with one person and one face assigned to it. -/
def dbDangle : Database :=
  ⟨[], [⟨1, some "A", none⟩], [⟨1, "x.jpg", RawEmb.invalid, "[]", none, some 1⟩], 2, 2⟩

/-- A session command sequence exercising clustering, rename, a guarded
merge, a scan and a ping. -/
def cmdsW : List Cmd :=
  [Cmd.cluster (some "/r"),
   Cmd.renamePerson (some "/r") (some 1) (some "Alice"),
   Cmd.mergePersons (some "/r") (some 1) (some 2),
   Cmd.scan (some "/r") true fsAB (fun _ => false),
   Cmd.ping]

/-! ## Theorems -/

/-- C1: the claim states that a face whose stored embedding fails to parse
is excluded from the clustering input and keeps `personId` null, and that
every assigned face is assigned according to the label of its own
embedding.  The code violates this: on a store where face 1 is unparsable
and faces 2 and 3 carry identical valid embeddings, the single clustering
run assigns the new person to faces 1 and 2 and leaves face 3 unassigned —
`face_ids` keeps the unparsable face (its id is appended before the parse)
while `embeddings` drops it, so the two lists go out of step and every
assignment after the bad row is shifted by one. -/
theorem C1_misaligned_assignment :
    dbC1.get_unclustered_faces =
      [(1, RawEmb.invalid), (2, RawEmb.valid [1, 0]), (3, RawEmb.valid [1, 0])] ∧
    parseEmb RawEmb.invalid = none ∧
    ((run_clustering dbC1).2.faces.map (fun f => (f.id, f.personId))) =
      [(1, some 1), (2, some 1), (3, none)] := by
  refine ⟨?_, ?_, ?_⟩
  · with_unfolding_all rfl
  · with_unfolding_all rfl
  · with_unfolding_all rfl

/-- C6: the claim states that no face whose point received the noise label
is assigned a person by that clustering run.  The code violates this
through the same index shift as C1: on a store where face 1 is unparsable,
face 2's embedding is a noise point and faces 3 and 4 form a cluster, the
parsed points are `[[0,1],[1,0],[1,0]]` with labels `[-1, 0, 0]` (face 2's
own point is noise), yet the run assigns face 2 to the new person (and
face 4, a cluster member, stays unassigned). -/
theorem C6_noise_face_assigned :
    ((dbC6.get_unclustered_faces).filterMap (fun r => parseEmb r.2)) =
      [[0, 1], [1, 0], [1, 0]] ∧
    dbscan_labels [[0, 1], [1, 0], [1, 0]] = [-1, 0, 0] ∧
    ((run_clustering dbC6).2.faces.map (fun f => (f.id, f.personId))) =
      [(1, none), (2, some 1), (3, some 1), (4, none)] := by
  refine ⟨?_, ?_, ?_⟩
  · with_unfolding_all rfl
  · with_unfolding_all rfl
  · with_unfolding_all rfl

/-- C2 counterexample: the claim states the final progress event's
`processedCount` equals the total number of enumerated files even when the
scan was stopped by the cancellation signal.  Cancelling a two-file scan at
the very first abort poll yields the final event
`progress(0, 2, "Complete")`: its processedCount 0 is not the total 2
(the code emits `processed_files`, not `total_files`). -/
theorem C2_counterexample :
    (enumerateImages fsAB).length = 2 ∧
    (scan_directory fsAB true (fun _ => true) freshDatabase).1.aborted = true ∧
    (scan_directory fsAB true (fun _ => true) freshDatabase).1.events =
      [Out.progress 0 2 "a.jpg", Out.progress 0 2 "Complete"] ∧
    (0 : Nat) ≠ 2 := by
  refine ⟨?_, ?_, ?_, ?_⟩
  · with_unfolding_all rfl
  · with_unfolding_all rfl
  · with_unfolding_all rfl
  · decide

/-- C4 counterexample: the claim states the referential invariant still
holds after any MERGE_PERSONS command, including one with
`keep_id = merge_id`.  On a store satisfying the invariant (one person, one
face assigned to it), MERGE_PERSONS with keep_id = merge_id = 1 deletes
person 1 while its face keeps `personId = 1`, breaking the invariant. -/
theorem C4_counterexample :
    invariantB dbDangle = true ∧
    (exec dbDangle [Cmd.mergePersons (some "/r") (some 1) (some 1)]).persons = [] ∧
    (exec dbDangle [Cmd.mergePersons (some "/r") (some 1) (some 1)]).faces.map
      (fun f => f.personId) = [some 1] ∧
    invariantB (exec dbDangle [Cmd.mergePersons (some "/r") (some 1) (some 1)]) = false := by
  refine ⟨?_, ?_, ?_, ?_⟩
  · with_unfolding_all rfl
  · with_unfolding_all rfl
  · with_unfolding_all rfl
  · with_unfolding_all rfl

/-- C5 counterexample: the claim states a SCAN whose root path does not
exist is rejected with an error status rather than a complete status.  In
the code, `run_scan` first runs `mkdir(parents=True, exist_ok=True)` for
`<root>/.faceframe`, which creates the missing root; the scan then sees an
existing, image-free root and the session prints `started`, the final
progress event and `complete` — a complete status and no error status. -/
theorem C5_counterexample :
    (run_scan "/missing" true ⟨false, []⟩ (fun _ => false) freshDatabase).2.1 =
      [Out.started "/missing", Out.progress 0 0 "Complete", Out.complete "/missing"] ∧
    ((run_scan "/missing" true ⟨false, []⟩ (fun _ => false) freshDatabase).2.1.any
      isErrorOut) = false ∧
    ((run_scan "/missing" true ⟨false, []⟩ (fun _ => false) freshDatabase).2.1.contains
      (Out.complete "/missing")) = true ∧
    (run_scan "/missing" true ⟨false, []⟩ (fun _ => false) freshDatabase).1 =
      freshDatabase := by
  refine ⟨?_, ?_, ?_, ?_⟩
  · with_unfolding_all rfl
  · with_unfolding_all rfl
  · with_unfolding_all rfl
  · with_unfolding_all rfl

/-- Reassigning every face of `mrg` to `keep` turns the `keep` face count
into the sum of the two previous counts (for distinct ids). -/
theorem countP_reassign (l : List FaceRow) (keep mrg : Nat) (h : keep ≠ mrg) :
    (l.map (fun f => if f.personId == some mrg then { f with personId := some keep } else f)).countP
        (fun f => f.personId == some keep)
      = l.countP (fun f => f.personId == some keep)
        + l.countP (fun f => f.personId == some mrg) := by
  induction l with
  | nil => rfl
  | cons f t ih =>
    simp only [List.map_cons, List.countP_cons]
    by_cases hm : f.personId = some mrg
    · simp only [hm, beq_self_eq_true, if_pos, ih]
      have h1 : ((some mrg : Option Nat) == some keep) = false := by
        simp [Ne.symm h]
      have h2 : ((some keep : Option Nat) == some keep) = true := by simp
      simp [h1, h2]
      omega
    · have h0 : (f.personId == some mrg) = false := by
        simp [hm]
      simp only [h0, Bool.false_eq_true, if_neg, ih]
      simp
      omega

/-- C3: for distinct existing persons `keep ≠ merge`, after
`merge_persons(keep, merge)` no Face row references `merge`, the `merge`
Person row is gone, and the `keep` face count is the sum of the two
previous counts.  The method runs both SQL statements under one commit, so
the embedding is a single atomic state change: there is no intermediate
state in which a face references the deleted person. -/
theorem C3_merge_integrity (db : Database) (keep mrg : Nat) (hne : keep ≠ mrg)
    (hk : personExists db.persons keep = true)
    (hm : personExists db.persons mrg = true) :
    (∀ f ∈ (db.merge_persons keep mrg).faces, f.personId ≠ some mrg) ∧
    personExists (db.merge_persons keep mrg).persons mrg = false ∧
    (db.merge_persons keep mrg).get_person_face_count keep
      = db.get_person_face_count keep + db.get_person_face_count mrg := by
  refine ⟨?_, ?_, ?_⟩
  · intro f hf
    obtain ⟨g, hg, rfl⟩ := List.mem_map.1 hf
    by_cases hgm : g.personId = some mrg
    · simp [hgm]
      exact hne
    · simp [hgm]
  · simp only [Database.merge_persons, personExists]
    rw [Bool.eq_false_iff]
    intro hany
    obtain ⟨p, hp, hpid⟩ := List.any_eq_true.1 hany
    obtain ⟨_, hkeep⟩ := List.mem_filter.1 hp
    simp at hpid hkeep
    exact hkeep hpid
  · exact countP_reassign db.faces keep mrg hne

/-- Witness for C3 at a concrete store: persons 1 and 2 exist with face
counts 1 and 2; after the merge of 2 into 1 the conclusions hold. -/
theorem C3_merge_integrity_witness :
    ((1 : Nat) ≠ 2 ∧ personExists dbMergeW.persons 1 = true ∧
      personExists dbMergeW.persons 2 = true) ∧
    ((∀ f ∈ (dbMergeW.merge_persons 1 2).faces, f.personId ≠ some 2) ∧
      personExists (dbMergeW.merge_persons 1 2).persons 2 = false ∧
      (dbMergeW.merge_persons 1 2).get_person_face_count 1
        = dbMergeW.get_person_face_count 1 + dbMergeW.get_person_face_count 2) :=
  ⟨⟨by decide, by decide, by decide⟩,
    C3_merge_integrity dbMergeW 1 2 (by decide) (by decide) (by decide)⟩

/-- C8: for CLUSTER, GET_UNCLUSTERED, GET_PERSONS, GET_PHOTOS_BY_PERSON,
RENAME_PERSON, MERGE_PERSONS and CLEAR_INDEX, a required field that is
absent or falsy (`path` absent or `""`, `person_id`/`keep_id`/`merge_id`
absent or `0`, `new_name` absent or `""`) makes the dispatch perform no
store mutation and emit no response line at all: the command is silently
dropped, not answered with an error status. -/
theorem C8_falsy_fields_dropped (db : Database) (p nn : Option String)
    (pid k m : Option Nat) :
    (truthyS p = false →
      dispatch db (Cmd.cluster p) = (db, []) ∧
      dispatch db (Cmd.getUnclustered p) = (db, []) ∧
      dispatch db (Cmd.getPersons p) = (db, []) ∧
      dispatch db (Cmd.getPhotosByPerson p pid) = (db, []) ∧
      dispatch db (Cmd.renamePerson p pid nn) = (db, []) ∧
      dispatch db (Cmd.mergePersons p k m) = (db, []) ∧
      dispatch db (Cmd.clearIndex p) = (db, [])) ∧
    (truthyN pid = false →
      dispatch db (Cmd.getPhotosByPerson p pid) = (db, []) ∧
      dispatch db (Cmd.renamePerson p pid nn) = (db, [])) ∧
    (truthyS nn = false → dispatch db (Cmd.renamePerson p pid nn) = (db, [])) ∧
    (truthyN k = false → dispatch db (Cmd.mergePersons p k m) = (db, [])) ∧
    (truthyN m = false → dispatch db (Cmd.mergePersons p k m) = (db, [])) := by
  refine ⟨?_, ?_, ?_, ?_, ?_⟩ <;> intro h <;> simp [dispatch, h]

/-- Witness for C8 at concrete inputs: an absent path, a zero person id and
an empty new name are each silently dropped. -/
theorem C8_falsy_fields_dropped_witness :
    (truthyS (none : Option String) = false ∧
      dispatch dbMergeW (Cmd.cluster none) = (dbMergeW, [])) ∧
    (truthyN (some 0) = false ∧
      dispatch dbMergeW (Cmd.renamePerson (some "/r") (some 0) (some "X")) = (dbMergeW, [])) ∧
    (truthyS (some "") = false ∧
      dispatch dbMergeW (Cmd.renamePerson (some "/r") (some 1) (some "")) = (dbMergeW, [])) :=
  ⟨⟨by decide,
    ((C8_falsy_fields_dropped dbMergeW none (some "X") (some 1) none none).1 (by decide)).1⟩,
   ⟨by decide,
    (((C8_falsy_fields_dropped dbMergeW (some "/r") (some "X") (some 0) none none).2.1
      (by decide)).2)⟩,
   ⟨by decide,
    ((C8_falsy_fields_dropped dbMergeW (some "/r") (some "") (some 1) none none).2.2.1
      (by decide))⟩⟩

/-- The per-file loop advances `processed_files` once per non-aborted
iteration: if it ends without aborting it processed every file, and if the
abort `break` fired it processed strictly fewer than it was given. -/
theorem scanLoop_processed (hp : Bool) (ab : Nat → Bool) (tot : Nat) :
    ∀ (imgs : List Img) (st : LoopState), st.aborted = false →
      ((scanLoop hp ab tot imgs st).aborted = false →
        (scanLoop hp ab tot imgs st).processed = st.processed + imgs.length) ∧
      ((scanLoop hp ab tot imgs st).aborted = true →
        (scanLoop hp ab tot imgs st).processed < st.processed + imgs.length) := by
  intro imgs
  induction imgs with
  | nil =>
    intro st h
    constructor
    · intro _
      simp [scanLoop]
    · intro hab
      rw [scanLoop, h] at hab
      cases hab
  | cons img rest ih =>
    intro st h
    rw [scanLoop]
    by_cases hab : ab st.polls
    · simp only [hab, if_pos]
      constructor
      · intro hc
        cases hc
      · intro _
        simp
    · have hab' : ab st.polls = false := by rwa [Bool.not_eq_true] at hab
      simp only [hab', Bool.false_eq_true, if_false]
      by_cases hfe : st.db.file_exists img.path img.mtime
      · simp only [hfe, if_pos]
        constructor
        · intro hres
          have h1 := (ih _ (by simpa using h)).1 hres
          dsimp only at h1
          simp only [List.length_cons]
          omega
        · intro hres
          have h1 := (ih _ (by simpa using h)).2 hres
          dsimp only at h1
          simp only [List.length_cons]
          omega
      · have hfe' : st.db.file_exists img.path img.mtime = false := by
          rwa [Bool.not_eq_true] at hfe
        simp only [hfe', Bool.false_eq_true, if_false]
        constructor
        · intro hres
          have h1 := (ih _ (by simpa using h)).1 hres
          dsimp only at h1
          simp only [List.length_cons]
          omega
        · intro hres
          have h1 := (ih _ (by simpa using h)).2 hres
          dsimp only at h1
          simp only [List.length_cons]
          omega

/-- C2 (amended): after the per-file loop of a scan over an existing root,
exactly one final progress event carrying the `"Complete"` marker is
appended, and its `processedCount` is the number of files processed — equal
to the total number of enumerated files when the scan ran to completion,
and strictly less than the total when the loop was stopped by the
cancellation signal (the code emits `processed_files`, not the claimed
`total`). -/
theorem C2_final_progress (fs : FS) (db : Database) (ab : Nat → Bool)
    (hroot : fs.rootExists = true) :
    (∃ evs, (scan_directory fs true ab db).1.events =
      evs ++ [Out.progress (scan_directory fs true ab db).1.processed
                (enumerateImages fs).length "Complete"]) ∧
    ((scan_directory fs true ab db).1.aborted = false →
      (scan_directory fs true ab db).1.processed = (enumerateImages fs).length) ∧
    ((scan_directory fs true ab db).1.aborted = true →
      (scan_directory fs true ab db).1.processed < (enumerateImages fs).length) := by
  have hmain := scanLoop_processed true ab (enumerateImages fs).length (enumerateImages fs)
    (initLoopState db) rfl
  simp only [scan_directory, hroot, if_pos]
  refine ⟨⟨(scanLoop true ab (enumerateImages fs).length (enumerateImages fs)
    (initLoopState db)).events, rfl⟩, ?_, ?_⟩
  · intro hres
    have := hmain.1 hres
    simpa [initLoopState] using this
  · intro hres
    have := hmain.2 hres
    simpa [initLoopState] using this

/-- Witness for C2 at a concrete two-image scan that runs to completion. -/
theorem C2_final_progress_witness :
    fsAB.rootExists = true ∧
    ((∃ evs, (scan_directory fsAB true (fun _ => false) freshDatabase).1.events =
      evs ++ [Out.progress (scan_directory fsAB true (fun _ => false) freshDatabase).1.processed
                (enumerateImages fsAB).length "Complete"]) ∧
    ((scan_directory fsAB true (fun _ => false) freshDatabase).1.aborted = false →
      (scan_directory fsAB true (fun _ => false) freshDatabase).1.processed =
        (enumerateImages fsAB).length) ∧
    ((scan_directory fsAB true (fun _ => false) freshDatabase).1.aborted = true →
      (scan_directory fsAB true (fun _ => false) freshDatabase).1.processed <
        (enumerateImages fsAB).length)) :=
  ⟨by decide, C2_final_progress fsAB freshDatabase (fun _ => false) (by decide)⟩

/-- C5 (amended): when the root path does not exist at SCAN time,
`run_scan` is not rejected with an error status: its directory-creation
prologue (`mkdir(parents=True, exist_ok=True)`) creates the missing root,
the scan then enumerates zero files (a just-created root holds no images),
writes no File or Face row, invokes the provider zero times, and the
session emits `started`, one final progress event and a `complete` status.
An `error` status is emitted only when the prologue itself fails. -/
theorem C5_missing_root (path : String) (fs : FS) (ab : Nat → Bool) (db : Database)
    (hroot : fs.rootExists = false) (hempty : fs.entries = []) (hab : ab 0 = false) :
    run_scan path true fs ab db =
      (db, [Out.started path, Out.progress 0 0 "Complete", Out.complete path], 0) ∧
    run_scan path false fs ab db = (db, [Out.error "scan setup failed"], 0) := by
  constructor
  · simp [run_scan, scan_directory, enumerateImages, hempty, scanLoop, initLoopState, hab]
  · simp [run_scan]

/-- Witness for C5 at a concrete missing root. -/
theorem C5_missing_root_witness :
    ((⟨false, []⟩ : FS).rootExists = false ∧ (⟨false, []⟩ : FS).entries = [] ∧
      (fun _ => false : Nat → Bool) 0 = false) ∧
    (run_scan "/missing" true ⟨false, []⟩ (fun _ => false) freshDatabase =
      (freshDatabase,
        [Out.started "/missing", Out.progress 0 0 "Complete", Out.complete "/missing"], 0) ∧
     run_scan "/missing" false ⟨false, []⟩ (fun _ => false) freshDatabase =
      (freshDatabase, [Out.error "scan setup failed"], 0)) :=
  ⟨⟨rfl, rfl, rfl⟩,
    C5_missing_root "/missing" ⟨false, []⟩ (fun _ => false) freshDatabase rfl rfl rfl⟩

/-- When the first true abort poll is the `k`-th (0-based) and `k` files
remain beyond it, the loop equals: the run over the first `k` files, plus
the progress event for file `k`, one more poll, and the abort flag — file
`k` itself is never touched (no store access, no provider call). -/
theorem scanLoop_abort_at (hp : Bool) (ab : Nat → Bool) (tot : Nat) :
    ∀ (k : Nat) (imgs : List Img) (st : LoopState),
      k < imgs.length →
      ab (st.polls + k) = true → (∀ j < k, ab (st.polls + j) = false) →
      scanLoop hp ab tot imgs st =
        { scanLoop hp ab tot (imgs.take k) st with
            polls := (scanLoop hp ab tot (imgs.take k) st).polls + 1,
            aborted := true,
            events := (scanLoop hp ab tot (imgs.take k) st).events ++
              [Out.progress (scanLoop hp ab tot (imgs.take k) st).processed tot
                (imgs.getD k default).base] } := by
  intro k
  induction k with
  | zero =>
    intro imgs st hk ht _
    match imgs, hk with
    | img :: rest, _ =>
      rw [scanLoop]
      simp only [Nat.add_zero] at ht
      simp only [ht, if_pos, List.take_zero, scanLoop, List.getD_cons_zero]
  | succ k ih =>
    intro imgs st hk ht hb
    match imgs, hk with
    | img :: rest, hk =>
      have h0 : ab st.polls = false := by
        have := hb 0 (Nat.succ_pos k)
        simpa using this
      rw [List.take_succ_cons]
      rw [scanLoop, scanLoop]
      simp only [h0, Bool.false_eq_true, if_false, List.getD_cons_succ]
      by_cases hfe : st.db.file_exists img.path img.mtime
      · simp only [hfe, if_pos]
        apply ih
        · simpa using Nat.lt_of_succ_lt_succ hk
        · show ab (st.polls + 1 + k) = true
          have he : st.polls + 1 + k = st.polls + (k + 1) := by omega
          rw [he]
          exact ht
        · intro j hj
          show ab (st.polls + 1 + j) = false
          have he : st.polls + 1 + j = st.polls + (j + 1) := by omega
          rw [he]
          exact hb (j + 1) (Nat.succ_lt_succ hj)
      · have hfe' : st.db.file_exists img.path img.mtime = false := by
          rwa [Bool.not_eq_true] at hfe
        simp only [hfe', Bool.false_eq_true, if_false]
        apply ih
        · simpa using Nat.lt_of_succ_lt_succ hk
        · show ab (st.polls + 1 + k) = true
          have he : st.polls + 1 + k = st.polls + (k + 1) := by omega
          rw [he]
          exact ht
        · intro j hj
          show ab (st.polls + 1 + j) = false
          have he : st.polls + 1 + j = st.polls + (j + 1) := by omega
          rw [he]
          exact hb (j + 1) (Nat.succ_lt_succ hj)

/-- While no abort poll fires, the flag is read exactly once per iterated
file. -/
theorem scanLoop_no_abort_polls (hp : Bool) (ab : Nat → Bool) (tot : Nat) :
    ∀ (imgs : List Img) (st : LoopState),
      (∀ j < imgs.length, ab (st.polls + j) = false) →
      (scanLoop hp ab tot imgs st).polls = st.polls + imgs.length := by
  intro imgs
  induction imgs with
  | nil =>
    intro st _
    simp [scanLoop]
  | cons img rest ih =>
    intro st hnb
    have h0 : ab st.polls = false := by
      have := hnb 0 (Nat.succ_pos rest.length)
      simpa using this
    rw [scanLoop]
    simp only [h0, Bool.false_eq_true, if_false]
    by_cases hfe : st.db.file_exists img.path img.mtime
    · simp only [hfe, if_pos]
      refine Eq.trans (ih _ ?_) ?_
      · intro j hj
        show ab (st.polls + 1 + j) = false
        have he : st.polls + 1 + j = st.polls + (j + 1) := by omega
        rw [he]
        exact hnb (j + 1) (Nat.succ_lt_succ hj)
      · show st.polls + 1 + rest.length = st.polls + (img :: rest).length
        simp only [List.length_cons]
        omega
    · have hfe' : st.db.file_exists img.path img.mtime = false := by
        rwa [Bool.not_eq_true] at hfe
      simp only [hfe', Bool.false_eq_true, if_false]
      refine Eq.trans (ih _ ?_) ?_
      · intro j hj
        show ab (st.polls + 1 + j) = false
        have he : st.polls + 1 + j = st.polls + (j + 1) := by omega
        rw [he]
        exact hnb (j + 1) (Nat.succ_lt_succ hj)
      · show st.polls + 1 + rest.length = st.polls + (img :: rest).length
        simp only [List.length_cons]
        omega

/-- C10: in each iteration the progress event is emitted before the
cancellation signal is checked; when the first true poll is the `k`-th, the
scan's state equals that of the run over the first `k` files only — the
last per-file progress event names file `k`, which is never processed (its
store state and provider-call count are those of the truncated run) — the
flag was polled `k + 1` times, at most once per enumerated file, and the
final completion event follows. -/
theorem C10_cancellation (fs : FS) (db : Database) (ab : Nat → Bool) (k : Nat)
    (hroot : fs.rootExists = true)
    (hk : k < (enumerateImages fs).length)
    (ht : ab k = true) (hb : ∀ j < k, ab j = false) :
    (scan_directory fs true ab db).1.aborted = true ∧
    (scan_directory fs true ab db).1.polls = k + 1 ∧
    (scan_directory fs true ab db).1.polls ≤ (enumerateImages fs).length ∧
    (scan_directory fs true ab db).1.db = (scanTrunc fs ab db k).db ∧
    (scan_directory fs true ab db).1.calls = (scanTrunc fs ab db k).calls ∧
    (scan_directory fs true ab db).1.processed = (scanTrunc fs ab db k).processed ∧
    (scan_directory fs true ab db).1.events =
      (scanTrunc fs ab db k).events ++
        [Out.progress (scanTrunc fs ab db k).processed (enumerateImages fs).length
           ((enumerateImages fs).getD k default).base,
         Out.progress (scanTrunc fs ab db k).processed (enumerateImages fs).length
           "Complete"] := by
  have habort := scanLoop_abort_at true ab (enumerateImages fs).length k (enumerateImages fs)
    (initLoopState db) hk (by simpa [initLoopState] using ht)
    (fun j hj => by simpa [initLoopState] using hb j hj)
  have hlen : ((enumerateImages fs).take k).length = k := by
    simp [List.length_take]
    omega
  have hpolls : (scanTrunc fs ab db k).polls = k := by
    have := scanLoop_no_abort_polls true ab (enumerateImages fs).length
      ((enumerateImages fs).take k) (initLoopState db)
      (by
        intro j hj
        rw [hlen] at hj
        simpa [initLoopState] using hb j hj)
    rw [hlen] at this
    simpa [scanTrunc, initLoopState] using this
  simp only [scan_directory, hroot, if_pos, scanTrunc] at *
  rw [habort]
  refine ⟨rfl, ?_, ?_, rfl, rfl, rfl, ?_⟩
  · dsimp only
    omega
  · dsimp only
    omega
  · dsimp only
    simp [List.append_assoc]

/-- Witness for C10: a two-image scan whose abort flag turns true at the
second poll. -/
theorem C10_cancellation_witness :
    (fsAB.rootExists = true ∧ 1 < (enumerateImages fsAB).length ∧
      (fun n => n == 1 : Nat → Bool) 1 = true ∧
      (∀ j < 1, (fun n => n == 1 : Nat → Bool) j = false)) ∧
    ((scan_directory fsAB true (fun n => n == 1) freshDatabase).1.aborted = true ∧
     (scan_directory fsAB true (fun n => n == 1) freshDatabase).1.polls = 1 + 1 ∧
     (scan_directory fsAB true (fun n => n == 1) freshDatabase).1.polls ≤
       (enumerateImages fsAB).length ∧
     (scan_directory fsAB true (fun n => n == 1) freshDatabase).1.db =
       (scanTrunc fsAB (fun n => n == 1) freshDatabase 1).db ∧
     (scan_directory fsAB true (fun n => n == 1) freshDatabase).1.calls =
       (scanTrunc fsAB (fun n => n == 1) freshDatabase 1).calls ∧
     (scan_directory fsAB true (fun n => n == 1) freshDatabase).1.processed =
       (scanTrunc fsAB (fun n => n == 1) freshDatabase 1).processed ∧
     (scan_directory fsAB true (fun n => n == 1) freshDatabase).1.events =
       (scanTrunc fsAB (fun n => n == 1) freshDatabase 1).events ++
         [Out.progress (scanTrunc fsAB (fun n => n == 1) freshDatabase 1).processed
            (enumerateImages fsAB).length ((enumerateImages fsAB).getD 1 default).base,
          Out.progress (scanTrunc fsAB (fun n => n == 1) freshDatabase 1).processed
            (enumerateImages fsAB).length "Complete"]) :=
  ⟨⟨by with_unfolding_all rfl,
    by
      have h2 : (enumerateImages fsAB).length = 2 := by with_unfolding_all rfl
      rw [h2]
      decide,
    by with_unfolding_all rfl, by decide⟩,
   C10_cancellation fsAB freshDatabase (fun n => n == 1) 1 (by with_unfolding_all rfl)
     (by
       have h2 : (enumerateImages fsAB).length = 2 := by with_unfolding_all rfl
       rw [h2]
       decide)
     (by with_unfolding_all rfl) (by decide)⟩

/-- `INSERT OR REPLACE` on one path leaves `file_exists` for any other path
unchanged. -/
theorem add_file_file_exists_other (db : Database) (p hsh : String) (m : Nat)
    (q : String) (m' : Nat) (hq : q ≠ p) :
    (db.add_file p hsh m).file_exists q m' = db.file_exists q m' := by
  unfold Database.add_file Database.file_exists
  induction db.files with
  | nil =>
    have h2 : (p == q) = false := by
      simp only [beq_eq_false_iff_ne, ne_eq]
      exact fun hc => hq hc.symm
    simp [List.find?, h2]
  | cons r t ih =>
    by_cases hrp : r.path = p
    · have h1 : (!(r.path == p)) = false := by simp [hrp]
      have h2 : (r.path == q) = false := by
        simp [hrp]
        exact fun hc => hq hc.symm
      simp only [List.filter_cons, h1, Bool.false_eq_true, if_false, List.find?]
      simp only [h2] at ih ⊢
      exact ih
    · have h1 : (!(r.path == p)) = true := by simp [hrp]
      simp only [List.filter_cons, h1, if_pos, List.cons_append, List.find?]
      by_cases hrq : r.path = q
      · simp [hrq]
      · have h2 : (r.path == q) = false := by simp [hrq]
        simp only [h2] at ih ⊢
        exact ih

/-- After `add_file(path, hash, mtime)`, `file_exists(path, mtime)` holds. -/
theorem add_file_file_exists_self (db : Database) (p hsh : String) (m : Nat) :
    (db.add_file p hsh m).file_exists p m = true := by
  unfold Database.add_file Database.file_exists
  induction db.files with
  | nil => simp [List.find?]
  | cons r t ih =>
    by_cases hrp : r.path = p
    · have h1 : (!(r.path == p)) = false := by simp [hrp]
      simp only [List.filter_cons, h1, Bool.false_eq_true, if_false]
      exact ih
    · have h1 : (!(r.path == p)) = true := by simp [hrp]
      have h2 : (r.path == p) = false := by simp [hrp]
      simp only [List.filter_cons, h1, if_pos, List.cons_append, List.find?, h2]
      exact ih

/-- Inserting faces touches only the `faces` table. -/
theorem add_faces_files (db : Database) (fp : String) (dets : List FaceDet) :
    (db.add_faces fp dets).files = db.files := by
  unfold Database.add_faces
  induction dets generalizing db with
  | nil => rfl
  | cons d t ih => simpa using ih _

/-- Hence `file_exists` is unchanged by `add_faces`. -/
theorem add_faces_file_exists (db : Database) (fp : String) (dets : List FaceDet)
    (p : String) (m : Nat) :
    (db.add_faces fp dets).file_exists p m = db.file_exists p m := by
  unfold Database.file_exists
  rw [add_faces_files]

/-- A `file_exists` fact for a path not among the remaining files survives
the rest of the scan loop. -/
theorem scanLoop_pres_file_exists (hp : Bool) (ab : Nat → Bool) (tot : Nat) :
    ∀ (imgs : List Img) (st : LoopState) (p : String) (m : Nat),
      (∀ i ∈ imgs, i.path ≠ p) → st.db.file_exists p m = true →
      (scanLoop hp ab tot imgs st).db.file_exists p m = true := by
  intro imgs
  induction imgs with
  | nil =>
    intro st p m _ h
    simpa [scanLoop] using h
  | cons img rest ih =>
    intro st p m hmem h
    have hne : p ≠ img.path := fun hc => hmem img (List.mem_cons_self img rest) hc.symm
    rw [scanLoop]
    by_cases hab : ab st.polls
    · simpa [hab] using h
    · have hab' : ab st.polls = false := by rwa [Bool.not_eq_true] at hab
      simp only [hab', Bool.false_eq_true, if_false]
      by_cases hfe : st.db.file_exists img.path img.mtime
      · simp only [hfe, if_pos]
        exact ih _ p m (fun i hi => hmem i (List.mem_cons_of_mem _ hi)) h
      · have hfe' : st.db.file_exists img.path img.mtime = false := by
          rwa [Bool.not_eq_true] at hfe
        simp only [hfe', Bool.false_eq_true, if_false]
        refine ih _ p m (fun i hi => hmem i (List.mem_cons_of_mem _ hi)) ?_
        dsimp only
        split
        · split
          · rw [add_file_file_exists_other _ _ _ _ _ _ hne]
            exact h
          · split
            · rw [add_file_file_exists_other _ _ _ _ _ _ hne]
              exact h
            · rw [add_faces_file_exists, add_file_file_exists_other _ _ _ _ _ _ hne]
              exact h
        · rw [add_file_file_exists_other _ _ _ _ _ _ hne]
          exact h

/-- If every remaining file is already recorded with its current mtime, the
loop only skips: the store and the provider-call count are untouched. -/
theorem scanLoop_skip_all (hp : Bool) (ab : Nat → Bool) (tot : Nat) :
    ∀ (imgs : List Img) (st : LoopState),
      (∀ i ∈ imgs, st.db.file_exists i.path i.mtime = true) →
      (scanLoop hp ab tot imgs st).db = st.db ∧
      (scanLoop hp ab tot imgs st).calls = st.calls := by
  intro imgs
  induction imgs with
  | nil =>
    intro st _
    exact ⟨rfl, rfl⟩
  | cons img rest ih =>
    intro st hall
    rw [scanLoop]
    by_cases hab : ab st.polls
    · simp [hab]
    · have hab' : ab st.polls = false := by rwa [Bool.not_eq_true] at hab
      have hfe : st.db.file_exists img.path img.mtime = true :=
        hall img (List.mem_cons_self img rest)
      simp only [hab', Bool.false_eq_true, if_false, hfe, if_pos]
      exact ih _ (fun i hi => hall i (List.mem_cons_of_mem _ hi))

/-- After an uncancelled loop over files with distinct paths, every file is
recorded with its current mtime. -/
theorem scanLoop_all_exist (hp : Bool) (tot : Nat) :
    ∀ (imgs : List Img) (st : LoopState),
      ((imgs.map Img.path).Nodup) →
      ∀ img ∈ imgs,
        (scanLoop hp (fun _ => false) tot imgs st).db.file_exists img.path img.mtime
          = true := by
  intro imgs
  induction imgs with
  | nil =>
    intro st _ img hmem
    cases hmem
  | cons i rest ih =>
    intro st hnd img hmem
    have htail : ∀ x ∈ rest, x.path ≠ i.path := by
      intro x hx hc
      have : i.path ∈ rest.map Img.path := by
        rw [← hc]
        exact List.mem_map_of_mem Img.path hx
      rw [List.map_cons, List.nodup_cons] at hnd
      exact hnd.1 this
    have hndt : (rest.map Img.path).Nodup := by
      rw [List.map_cons, List.nodup_cons] at hnd
      exact hnd.2
    rw [scanLoop]
    simp only [Bool.false_eq_true, if_false]
    by_cases hfe : st.db.file_exists i.path i.mtime
    · simp only [hfe, if_pos]
      rcases List.mem_cons.1 hmem with heq | hmemt
      · subst heq
        exact scanLoop_pres_file_exists hp _ tot rest _ img.path img.mtime htail hfe
      · exact ih _ hndt img hmemt
    · have hfe' : st.db.file_exists i.path i.mtime = false := by
        rwa [Bool.not_eq_true] at hfe
      simp only [hfe', Bool.false_eq_true, if_false]
      rcases List.mem_cons.1 hmem with heq | hmemt
      · subst heq
        refine scanLoop_pres_file_exists hp _ tot rest _ img.path img.mtime htail ?_
        dsimp only
        split
        · split
          · exact add_file_file_exists_self _ _ _ _
          · split
            · exact add_file_file_exists_self _ _ _ _
            · rw [add_faces_file_exists]
              exact add_file_file_exists_self _ _ _ _
        · exact add_file_file_exists_self _ _ _ _
      · exact ih _ hndt img hmemt

/-- C7: re-scanning a directory whose files are unchanged (same fs passed
twice, distinct paths) leaves File and Face row counts — and in fact the
whole store — identical to the state after the first scan, and the second
scan invokes the provider zero times. -/
theorem C7_rescan_idempotent (fs : FS) (db : Database)
    (hroot : fs.rootExists = true)
    (hnd : ((enumerateImages fs).map Img.path).Nodup) :
    (scan_directory fs true (fun _ => false)
        (scan_directory fs true (fun _ => false) db).1.db).1.db =
      (scan_directory fs true (fun _ => false) db).1.db ∧
    (scan_directory fs true (fun _ => false)
        (scan_directory fs true (fun _ => false) db).1.db).1.db.files.length =
      (scan_directory fs true (fun _ => false) db).1.db.files.length ∧
    (scan_directory fs true (fun _ => false)
        (scan_directory fs true (fun _ => false) db).1.db).1.db.faces.length =
      (scan_directory fs true (fun _ => false) db).1.db.faces.length ∧
    (scan_directory fs true (fun _ => false)
        (scan_directory fs true (fun _ => false) db).1.db).1.calls = 0 := by
  have hex := scanLoop_all_exist true (enumerateImages fs).length (enumerateImages fs)
    (initLoopState db) hnd
  simp only [scan_directory, hroot, if_pos]
  have hskip := scanLoop_skip_all true (fun _ => false) (enumerateImages fs).length
    (enumerateImages fs)
    (initLoopState (scanLoop true (fun _ => false) (enumerateImages fs).length
      (enumerateImages fs) (initLoopState db)).db)
    (by
      intro i hi
      simpa [initLoopState] using hex i hi)
  rw [hskip.1, hskip.2]
  simp [initLoopState]

/-- Witness for C7 at a concrete two-image directory. -/
theorem C7_rescan_idempotent_witness :
    (fsAB.rootExists = true ∧ ((enumerateImages fsAB).map Img.path).Nodup) ∧
    ((scan_directory fsAB true (fun _ => false)
        (scan_directory fsAB true (fun _ => false) freshDatabase).1.db).1.db =
      (scan_directory fsAB true (fun _ => false) freshDatabase).1.db ∧
    (scan_directory fsAB true (fun _ => false)
        (scan_directory fsAB true (fun _ => false) freshDatabase).1.db).1.db.files.length =
      (scan_directory fsAB true (fun _ => false) freshDatabase).1.db.files.length ∧
    (scan_directory fsAB true (fun _ => false)
        (scan_directory fsAB true (fun _ => false) freshDatabase).1.db).1.db.faces.length =
      (scan_directory fsAB true (fun _ => false) freshDatabase).1.db.faces.length ∧
    (scan_directory fsAB true (fun _ => false)
        (scan_directory fsAB true (fun _ => false) freshDatabase).1.db).1.calls = 0) :=
  ⟨⟨by with_unfolding_all rfl,
    by
      rw [show (enumerateImages fsAB).map Img.path = ["/r/a.jpg", "/r/b.jpg"] from
        by with_unfolding_all rfl]
      decide⟩,
   C7_rescan_idempotent fsAB freshDatabase (by with_unfolding_all rfl)
     (by
       rw [show (enumerateImages fsAB).map Img.path = ["/r/a.jpg", "/r/b.jpg"] from
         by with_unfolding_all rfl]
       decide)⟩

/-- The row written by `add_file` is in the table. -/
theorem mem_add_file_self (db : Database) (p hsh : String) (m : Nat) :
    (⟨p, hsh, m⟩ : FileRow) ∈ (db.add_file p hsh m).files := by
  unfold Database.add_file
  exact List.mem_append_right _ (List.mem_singleton.2 rfl)

/-- `add_file` on another path keeps an existing row. -/
theorem mem_add_file_other (db : Database) (r : FileRow) (p hsh : String) (m : Nat)
    (hr : r ∈ db.files) (hne : r.path ≠ p) :
    r ∈ (db.add_file p hsh m).files := by
  unfold Database.add_file
  refine List.mem_append_left _ (List.mem_filter.2 ⟨hr, ?_⟩)
  simp [hne]

/-- A File row whose path is not among the remaining files survives the
rest of the scan loop. -/
theorem scanLoop_pres_mem (hp : Bool) (ab : Nat → Bool) (tot : Nat) :
    ∀ (imgs : List Img) (st : LoopState) (r : FileRow),
      (∀ i ∈ imgs, i.path ≠ r.path) → r ∈ st.db.files →
      r ∈ (scanLoop hp ab tot imgs st).db.files := by
  intro imgs
  induction imgs with
  | nil =>
    intro st r _ h
    simpa [scanLoop] using h
  | cons img rest ih =>
    intro st r hmem h
    have hne : r.path ≠ img.path := fun hc => hmem img (List.mem_cons_self img rest) hc.symm
    rw [scanLoop]
    by_cases hab : ab st.polls
    · simpa [hab] using h
    · have hab' : ab st.polls = false := by rwa [Bool.not_eq_true] at hab
      simp only [hab', Bool.false_eq_true, if_false]
      by_cases hfe : st.db.file_exists img.path img.mtime
      · simp only [hfe, if_pos]
        exact ih _ r (fun i hi => hmem i (List.mem_cons_of_mem _ hi)) h
      · have hfe' : st.db.file_exists img.path img.mtime = false := by
          rwa [Bool.not_eq_true] at hfe
        simp only [hfe', Bool.false_eq_true, if_false]
        refine ih _ r (fun i hi => hmem i (List.mem_cons_of_mem _ hi)) ?_
        dsimp only
        split
        · split
          · exact mem_add_file_other _ _ _ _ _ h hne
          · split
            · exact mem_add_file_other _ _ _ _ _ h hne
            · rw [add_faces_files]
              exact mem_add_file_other _ _ _ _ _ h hne
        · exact mem_add_file_other _ _ _ _ _ h hne

/-- A new file whose bytes cannot be read is still recorded: its row with
the empty hash and its mtime is in the table after the scan. -/
theorem scanLoop_mem_filerow (hp : Bool) (tot : Nat) :
    ∀ (imgs : List Img) (st : LoopState) (img : Img),
      img ∈ imgs → ((imgs.map Img.path).Nodup) →
      st.db.file_exists img.path img.mtime = false → img.readOk = false →
      (⟨img.path, "", img.mtime⟩ : FileRow) ∈
        (scanLoop hp (fun _ => false) tot imgs st).db.files := by
  intro imgs
  induction imgs with
  | nil =>
    intro st img hmem
    cases hmem
  | cons i rest ih =>
    intro st img hmem hnd hnew hro
    have htail : ∀ x ∈ rest, x.path ≠ i.path := by
      intro x hx hc
      have : i.path ∈ rest.map Img.path := by
        rw [← hc]
        exact List.mem_map_of_mem Img.path hx
      rw [List.map_cons, List.nodup_cons] at hnd
      exact hnd.1 this
    have hndt : (rest.map Img.path).Nodup := by
      rw [List.map_cons, List.nodup_cons] at hnd
      exact hnd.2
    rw [scanLoop]
    simp only [Bool.false_eq_true, if_false]
    rcases List.mem_cons.1 hmem with heq | hmemt
    · subst heq
      simp only [hnew, Bool.false_eq_true, if_false]
      have hhash : calculate_hash img = "" := by
        unfold calculate_hash
        rw [hro]
        simp
      refine scanLoop_pres_mem hp _ tot rest _ _
        (fun x hx => fun hc => htail x hx hc) ?_
      dsimp only
      rw [hhash]
      split
      · split
        · exact mem_add_file_self _ _ _ _
        · split
          · exact mem_add_file_self _ _ _ _
          · rw [add_faces_files]
            exact mem_add_file_self _ _ _ _
      · exact mem_add_file_self _ _ _ _
    · have hne : img.path ≠ i.path := by
        intro hc
        exact htail img hmemt hc
      by_cases hfe : st.db.file_exists i.path i.mtime
      · simp only [hfe, if_pos]
        exact ih _ img hmemt hndt hnew hro
      · have hfe' : st.db.file_exists i.path i.mtime = false := by
          rwa [Bool.not_eq_true] at hfe
        simp only [hfe', Bool.false_eq_true, if_false]
        refine ih _ img hmemt hndt ?_ hro
        dsimp only
        split
        · split
          · rw [add_file_file_exists_other _ _ _ _ _ _ hne]
            exact hnew
          · split
            · rw [add_file_file_exists_other _ _ _ _ _ _ hne]
              exact hnew
            · rw [add_faces_file_exists, add_file_file_exists_other _ _ _ _ _ _ hne]
              exact hnew
        · rw [add_file_file_exists_other _ _ _ _ _ _ hne]
          exact hnew

/-- C9: when reading a new file's bytes fails during a scan, the hash
function returns `""`, the scan continues and still upserts the File row
with the empty hash and the file's mtime, `file_exists(path, mtime)` holds
after the scan, and any later scan iteration reaching that unchanged file
skips it (progress counted, no store write, no provider call). -/
theorem C9_hash_failure (fs : FS) (db : Database) (img : Img)
    (hroot : fs.rootExists = true) (hro : img.readOk = false)
    (hmem : img ∈ enumerateImages fs)
    (hnd : ((enumerateImages fs).map Img.path).Nodup)
    (hnew : db.file_exists img.path img.mtime = false) :
    calculate_hash img = "" ∧
    (⟨img.path, "", img.mtime⟩ : FileRow) ∈
      (scan_directory fs true (fun _ => false) db).1.db.files ∧
    (scan_directory fs true (fun _ => false) db).1.db.file_exists img.path img.mtime
      = true ∧
    (∀ (st : LoopState) (rest : List Img) (tot : Nat),
      st.db.file_exists img.path img.mtime = true →
      scanLoop true (fun _ => false) tot (img :: rest) st =
        scanLoop true (fun _ => false) tot rest
          { st with processed := st.processed + 1, polls := st.polls + 1,
                    events := st.events ++ [Out.progress st.processed tot img.base] }) := by
  refine ⟨?_, ?_, ?_, ?_⟩
  · simp [calculate_hash, hro]
  · simp only [scan_directory, hroot, if_pos]
    exact scanLoop_mem_filerow true _ (enumerateImages fs) (initLoopState db) img hmem hnd
      hnew hro
  · simp only [scan_directory, hroot, if_pos]
    exact scanLoop_all_exist true _ (enumerateImages fs) (initLoopState db) hnd img hmem
  · intro st rest tot hfe
    rw [scanLoop]
    simp only [Bool.false_eq_true, if_false, hfe, if_pos]

/-- Witness for C9 at a concrete one-file directory whose file is
unreadable. -/
theorem C9_hash_failure_witness :
    (fsBad.rootExists = true ∧ imgBad.readOk = false ∧
      imgBad ∈ enumerateImages fsBad ∧
      ((enumerateImages fsBad).map Img.path).Nodup ∧
      freshDatabase.file_exists imgBad.path imgBad.mtime = false) ∧
    (calculate_hash imgBad = "" ∧
    (⟨imgBad.path, "", imgBad.mtime⟩ : FileRow) ∈
      (scan_directory fsBad true (fun _ => false) freshDatabase).1.db.files ∧
    (scan_directory fsBad true (fun _ => false) freshDatabase).1.db.file_exists
      imgBad.path imgBad.mtime = true ∧
    (∀ (st : LoopState) (rest : List Img) (tot : Nat),
      st.db.file_exists imgBad.path imgBad.mtime = true →
      scanLoop true (fun _ => false) tot (imgBad :: rest) st =
        scanLoop true (fun _ => false) tot rest
          { st with processed := st.processed + 1, polls := st.polls + 1,
                    events := st.events ++
                      [Out.progress st.processed tot imgBad.base] })) :=
  ⟨⟨by with_unfolding_all rfl, by with_unfolding_all rfl,
    by
      rw [show enumerateImages fsBad = [imgBad] from by with_unfolding_all rfl]
      exact List.mem_singleton.2 rfl,
    by
      rw [show (enumerateImages fsBad).map Img.path = ["/r/bad.jpg"] from
        by with_unfolding_all rfl]
      decide,
    by with_unfolding_all rfl⟩,
   C9_hash_failure fsBad freshDatabase imgBad (by with_unfolding_all rfl)
     (by with_unfolding_all rfl)
     (by
       rw [show enumerateImages fsBad = [imgBad] from by with_unfolding_all rfl]
       exact List.mem_singleton.2 rfl)
     (by
       rw [show (enumerateImages fsBad).map Img.path = ["/r/bad.jpg"] from
         by with_unfolding_all rfl]
       decide)
     (by with_unfolding_all rfl)⟩

theorem invariantB_iff (db : Database) :
    invariantB db = true ↔
      ∀ f ∈ db.faces, ∀ pid, f.personId = some pid →
        personExists db.persons pid = true := by
  unfold invariantB
  rw [List.all_eq_true]
  constructor
  · intro h f hf pid hpid
    have := h f hf
    rw [hpid] at this
    exact this
  · intro h f hf
    cases hcase : f.personId with
    | none => rfl
    | some pid => exact h f hf pid hcase

theorem personExists_iff (ps : List PersonRow) (pid : Nat) :
    personExists ps pid = true ↔ ∃ p ∈ ps, p.id = pid := by
  simp [personExists, List.any_eq_true]

theorem invariantB_of_faces_persons (db1 db2 : Database)
    (hf : db2.faces = db1.faces)
    (hp : ∀ pid, personExists db1.persons pid = true →
      personExists db2.persons pid = true)
    (h : invariantB db1 = true) : invariantB db2 = true := by
  rw [invariantB_iff] at h ⊢
  rw [hf]
  intro f hf' q hq
  exact hp q (h f hf' q hq)

theorem personExists_append_left (ps qs : List PersonRow) (pid : Nat)
    (h : personExists ps pid = true) : personExists (ps ++ qs) pid = true := by
  rw [personExists_iff] at h ⊢
  obtain ⟨p, hp, hid⟩ := h
  exact ⟨p, List.mem_append_left _ hp, hid⟩

theorem personExists_map_keep_id (ps : List PersonRow) (g : PersonRow → PersonRow)
    (hg : ∀ p, (g p).id = p.id) (pid : Nat) :
    personExists (ps.map g) pid = personExists ps pid := by
  unfold personExists
  induction ps with
  | nil => rfl
  | cons p t ih => simp [hg, ih]

theorem lookup_mem {α β : Type} [BEq α] [LawfulBEq α] (l : List (α × β)) (a : α) (b : β) :
    l.lookup a = some b → (a, b) ∈ l := by
  induction l with
  | nil =>
    intro h
    cases h
  | cons p t ih =>
    obtain ⟨pa, pb⟩ := p
    intro h
    rw [List.lookup] at h
    by_cases hab : a == pa
    · rw [hab] at h
      simp only [Option.some.injEq] at h
      have ha : a = pa := eq_of_beq hab
      rw [ha, ← h]
      exact List.mem_cons_self (pa, pb) t
    · have hab' : (a == pa) = false := by rwa [Bool.not_eq_true] at hab
      rw [hab'] at h
      exact List.mem_cons_of_mem _ (ih h)
theorem invariantB_update_face_person (db : Database) (fid pid : Nat)
    (h : invariantB db = true) (hp : personExists db.persons pid = true) :
    invariantB (db.update_face_person fid pid) = true := by
  rw [invariantB_iff] at h ⊢
  intro f hf q hq
  have hpersons : (db.update_face_person fid pid).persons = db.persons := rfl
  rw [hpersons]
  simp only [Database.update_face_person] at hf
  obtain ⟨g, hg, rfl⟩ := List.mem_map.1 hf
  by_cases hid : g.id == fid
  · rw [if_pos hid] at hq
    simp only at hq
    rw [Option.some.injEq] at hq
    rw [← hq]
    exact hp
  · rw [if_neg hid] at hq
    exact h g hg q hq

theorem invariantB_add_file (db : Database) (p hsh : String) (m : Nat)
    (h : invariantB db = true) : invariantB (db.add_file p hsh m) = true := h

theorem invariantB_add_faces (db : Database) (fp : String) (dets : List FaceDet)
    (h : invariantB db = true) : invariantB (db.add_faces fp dets) = true := by
  induction dets generalizing db with
  | nil => exact h
  | cons d t ih =>
    rw [Database.add_faces, List.foldl_cons]
    refine ih _ ?_
    rw [invariantB_iff] at h ⊢
    intro f hf q hq
    simp only at hf
    rcases List.mem_append.1 hf with hold | hnew
    · exact h f hold q hq
    · rw [List.mem_singleton] at hnew
      rw [hnew] at hq
      cases hq

theorem invariantB_rename_person (db : Database) (pid : Nat) (nm : String)
    (h : invariantB db = true) : invariantB (db.rename_person pid nm) = true := by
  refine invariantB_of_faces_persons db _ rfl ?_ h
  intro q hq
  simp only [Database.rename_person]
  rw [personExists_map_keep_id]
  · exact hq
  · intro p
    by_cases hid : p.id == pid
    · rw [if_pos hid]
    · rw [if_neg hid]

theorem invariantB_update_person_thumbnail (db : Database) (pid : Nat) (t : String)
    (h : invariantB db = true) : invariantB (db.update_person_thumbnail pid t) = true := by
  refine invariantB_of_faces_persons db _ rfl ?_ h
  intro q hq
  simp only [Database.update_person_thumbnail]
  rw [personExists_map_keep_id]
  · exact hq
  · intro p
    by_cases hid : p.id == pid
    · rw [if_pos hid]
    · rw [if_neg hid]

theorem personExists_filter_ne (ps : List PersonRow) (keep mrg : Nat)
    (hne : keep ≠ mrg) (h : personExists ps keep = true) :
    personExists (ps.filter (fun p => !(p.id == mrg))) keep = true := by
  rw [personExists_iff] at h ⊢
  obtain ⟨p, hp, hid⟩ := h
  refine ⟨p, List.mem_filter.2 ⟨hp, ?_⟩, hid⟩
  simp [hid, hne]

theorem invariantB_merge_persons (db : Database) (keep mrg : Nat)
    (h : invariantB db = true) (hne : keep ≠ mrg)
    (hk : personExists db.persons keep = true) :
    invariantB (db.merge_persons keep mrg) = true := by
  rw [invariantB_iff] at h ⊢
  intro f hf q hq
  simp only [Database.merge_persons] at hf ⊢
  obtain ⟨g, hg, rfl⟩ := List.mem_map.1 hf
  by_cases hm : g.personId == some mrg
  · rw [if_pos hm] at hq
    simp only at hq
    rw [Option.some.injEq] at hq
    rw [← hq]
    exact personExists_filter_ne _ _ _ hne hk
  · rw [if_neg hm] at hq
    have hqm : q ≠ mrg := by
      intro hc
      rw [hc] at hq
      rw [hq] at hm
      simp at hm
    exact personExists_filter_ne _ _ _ hqm (h g hg q hq)
theorem invariantB_scanLoop (hp : Bool) (ab : Nat → Bool) (tot : Nat) :
    ∀ (imgs : List Img) (st : LoopState), invariantB st.db = true →
      invariantB (scanLoop hp ab tot imgs st).db = true := by
  intro imgs
  induction imgs with
  | nil =>
    intro st h
    simpa [scanLoop] using h
  | cons img rest ih =>
    intro st h
    rw [scanLoop]
    by_cases hab : ab st.polls
    · simpa [hab] using h
    · have hab' : ab st.polls = false := by rwa [Bool.not_eq_true] at hab
      simp only [hab', Bool.false_eq_true, if_false]
      by_cases hfe : st.db.file_exists img.path img.mtime
      · simp only [hfe, if_pos]
        exact ih _ h
      · have hfe' : st.db.file_exists img.path img.mtime = false := by
          rwa [Bool.not_eq_true] at hfe
        simp only [hfe', Bool.false_eq_true, if_false]
        refine ih _ ?_
        dsimp only
        split
        · split
          · exact invariantB_add_file _ _ _ _ h
          · split
            · exact invariantB_add_file _ _ _ _ h
            · exact invariantB_add_faces _ _ _ (invariantB_add_file _ _ _ _ h)
        · exact invariantB_add_file _ _ _ _ h

theorem createFold_facts (ls : List Int) :
    ∀ (acc : Database × List (Int × Nat)),
      (ls.foldl createPersonForLabel acc).1.faces = acc.1.faces ∧
      (∀ pid, personExists acc.1.persons pid = true →
        personExists (ls.foldl createPersonForLabel acc).1.persons pid = true) ∧
      (invariantB acc.1 = true → invariantB (ls.foldl createPersonForLabel acc).1 = true) ∧
      (∀ lp ∈ (ls.foldl createPersonForLabel acc).2,
        lp ∈ acc.2 ∨
          personExists (ls.foldl createPersonForLabel acc).1.persons lp.2 = true) := by
  induction ls with
  | nil =>
    intro acc
    exact ⟨rfl, fun _ h => h, fun h => h, fun lp hlp => Or.inl hlp⟩
  | cons l t ih =>
    intro acc
    rw [List.foldl_cons]
    by_cases hl : l == (-1 : Int)
    · rw [createPersonForLabel, if_pos hl]
      exact ih acc
    · rw [createPersonForLabel, if_neg hl]
      obtain ⟨ihf, ihp, ihinv, ihlp⟩ := ih
        ((acc.1.create_person (some ("Person " ++ toString (l + 1)))).2,
         acc.2 ++ [(l, (acc.1.create_person (some ("Person " ++ toString (l + 1)))).1)])
      refine ⟨ihf, ?_, ?_, ?_⟩
      · intro pid hpid
        refine ihp pid ?_
        exact personExists_append_left _ _ _ hpid
      · intro hinv
        refine ihinv ?_
        refine invariantB_of_faces_persons acc.1 _ rfl ?_ hinv
        intro q hq
        exact personExists_append_left _ _ _ hq
      · intro lp hlp
        rcases ihlp lp hlp with hin | hex
        · rcases List.mem_append.1 hin with hin1 | hin2
          · exact Or.inl hin1
          · rw [List.mem_singleton] at hin2
            refine Or.inr ?_
            rw [hin2]
            refine ihp _ ?_
            simp [Database.create_person, personExists]
        · exact Or.inr hex

theorem assignFold_facts (face_ids : List Nat) (cluster_map : List (Int × Nat)) :
    ∀ (ls : List (Nat × Int)) (d : Database), invariantB d = true →
      (∀ lp ∈ cluster_map, personExists d.persons lp.2 = true) →
      invariantB (ls.foldl (assignFaceForLabel face_ids cluster_map) d) = true ∧
      (ls.foldl (assignFaceForLabel face_ids cluster_map) d).persons = d.persons := by
  intro ls
  induction ls with
  | nil =>
    intro d h _
    exact ⟨h, rfl⟩
  | cons il t ih =>
    intro d h hmap
    rw [List.foldl_cons]
    have hstep : invariantB (assignFaceForLabel face_ids cluster_map d il) = true ∧
        (assignFaceForLabel face_ids cluster_map d il).persons = d.persons := by
      rw [assignFaceForLabel]
      by_cases hl : il.2 == (-1 : Int)
      · rw [if_pos hl]
        exact ⟨h, rfl⟩
      · rw [if_neg hl]
        cases hlk : cluster_map.lookup il.2 with
        | none => exact ⟨h, rfl⟩
        | some pid =>
          have hmem := lookup_mem cluster_map il.2 pid hlk
          exact ⟨invariantB_update_face_person d _ pid h (hmap (il.2, pid) hmem), rfl⟩
    obtain ⟨ih1, ih2⟩ := ih (assignFaceForLabel face_ids cluster_map d il) hstep.1
      (by
        intro lp hlp
        rw [hstep.2]
        exact hmap lp hlp)
    exact ⟨ih1, ih2.trans hstep.2⟩

theorem thumbFold_inv : ∀ (ls : List (Int × Nat)) (d : Database),
    invariantB d = true → invariantB (ls.foldl setThumbnailForPerson d) = true := by
  intro ls
  induction ls with
  | nil =>
    intro d h
    exact h
  | cons lp t ih =>
    intro d h
    rw [List.foldl_cons]
    refine ih _ ?_
    rw [setThumbnailForPerson]
    cases d.get_first_face_thumbnail lp.2 with
    | none => exact h
    | some t' => exact invariantB_update_person_thumbnail d _ _ h

theorem invariantB_run_clustering (db : Database) (h : invariantB db = true) :
    invariantB (run_clustering db).2 = true := by
  rw [run_clustering]
  by_cases h1 : db.get_unclustered_faces.isEmpty
  · rw [if_pos h1]
    exact h
  · rw [if_neg h1]
    by_cases h2 : ((db.get_unclustered_faces.filterMap (fun r => parseEmb r.2)).length < 2)
    · rw [if_pos h2]
      exact h
    · rw [if_neg h2]
      dsimp only
      obtain ⟨hfaces, hmono, hinv, hlp⟩ :=
        createFold_facts
          (dedupFirst (dbscan_labels (db.get_unclustered_faces.filterMap
            (fun r => parseEmb r.2)))) (db, [])
      have hinv1 := hinv h
      have hmap : ∀ lp ∈ ((dedupFirst (dbscan_labels (db.get_unclustered_faces.filterMap
          (fun r => parseEmb r.2)))).foldl createPersonForLabel (db, [])).2,
          personExists ((dedupFirst (dbscan_labels (db.get_unclustered_faces.filterMap
            (fun r => parseEmb r.2)))).foldl createPersonForLabel (db, [])).1.persons lp.2
            = true := by
        intro lp hlp'
        rcases hlp lp hlp' with hin | hex
        · cases hin
        · exact hex
      obtain ⟨ha1, _⟩ := assignFold_facts
        (db.get_unclustered_faces.map (fun r => r.1)) _
        (dbscan_labels (db.get_unclustered_faces.filterMap (fun r => parseEmb r.2))).enum
        _ hinv1 hmap
      exact thumbFold_inv _ _ ha1
theorem invariantB_freshDatabase : invariantB freshDatabase = true := rfl

theorem invariantB_run_scan (path : String) (ok : Bool) (fs : FS) (ab : Nat → Bool)
    (db : Database) (h : invariantB db = true) :
    invariantB (run_scan path ok fs ab db).1 = true := by
  rw [run_scan]
  by_cases hok : ok
  · rw [if_pos hok]
    dsimp only
    rw [scan_directory]
    simp only [if_pos]
    exact invariantB_scanLoop true ab _ _ (initLoopState db) h
  · rw [if_neg hok]
    exact h

theorem invariantB_dispatch (db : Database) (c : Cmd) (h : invariantB db = true)
    (hok : okMergeB db c = true) : invariantB (dispatch db c).1 = true := by
  cases c with
  | scan p ok fs ab =>
    rw [dispatch]
    by_cases hp : truthyS p
    · rw [if_pos hp]
      exact invariantB_run_scan _ _ _ _ _ h
    · rw [if_neg hp]
      exact h
  | cancelScan => exact h
  | cluster p =>
    rw [dispatch]
    by_cases hp : truthyS p
    · rw [if_pos hp]
      exact invariantB_run_clustering db h
    · rw [if_neg hp]
      exact h
  | getUnclustered p =>
    rw [dispatch]
    split <;> exact h
  | getPersons p =>
    rw [dispatch]
    split <;> exact h
  | getPhotosByPerson p pid =>
    rw [dispatch]
    split <;> exact h
  | renamePerson p pid nn =>
    rw [dispatch]
    by_cases hp : (truthyS p && truthyN pid && truthyS nn)
    · rw [if_pos hp]
      exact invariantB_rename_person db _ _ h
    · rw [if_neg hp]
      exact h
  | mergePersons p k m =>
    rw [dispatch]
    by_cases hp : (truthyS p && truthyN k && truthyN m)
    · rw [if_pos hp]
      rw [okMergeB, hp] at hok
      simp only [Bool.not_true, Bool.false_or, Bool.and_eq_true] at hok
      refine invariantB_merge_persons db _ _ h ?_ hok.2
      have := hok.1
      simp only [Bool.not_eq_eq_eq_not, Bool.not_false, beq_iff_eq] at this
      intro hc
      rw [hc] at this
      simp at this
    · rw [if_neg hp]
      exact h
  | clearIndex p =>
    rw [dispatch]
    split
    · exact invariantB_freshDatabase
    · exact h
  | ping => exact h

/-- C4 (amended): under every sequence of session commands (clustering,
rename, merge, scan, reads, clear, ping) in which each MERGE_PERSONS whose
dispatch guard fires has `keep_id ≠ merge_id` and a keep person that exists
in the store at that point, the referential invariant is preserved: every
Face with a non-null `personId` references an existing Person.  (The
unguarded code violates this for `keep_id = merge_id` — see the
counterexample — and would also dangle faces when the keep person does not
exist, which is why both conditions appear in the guard.) -/
theorem C4_invariant_guarded (cs : List Cmd) :
    ∀ (db : Database), invariantB db = true → execOkB db cs = true →
      invariantB (exec db cs) = true := by
  induction cs with
  | nil =>
    intro db h _
    exact h
  | cons c t ih =>
    intro db h hok
    rw [execOkB, Bool.and_eq_true] at hok
    rw [exec]
    exact ih _ (invariantB_dispatch db c h hok.1) hok.2

/-- Witness for C4 at a concrete store and command sequence containing a
clustering run, a rename, a guarded merge, a scan and a ping. -/
theorem C4_invariant_guarded_witness :
    (invariantB dbMergeW = true ∧ execOkB dbMergeW cmdsW = true) ∧
    invariantB (exec dbMergeW cmdsW) = true :=
  ⟨⟨by with_unfolding_all rfl, by with_unfolding_all rfl⟩,
   C4_invariant_guarded cmdsW dbMergeW (by with_unfolding_all rfl)
     (by with_unfolding_all rfl)⟩

end FaceFrame
